import Mathlib

/-!
Verification of the SpotiFLAC mobile Go backend (extension-runtime file
sandbox, script timeout runner, track-identifier cache, ISRC content index,
parallel fetch orchestrator).

The Go sources are shallowly embedded as Lean functions.  Paths are Go
strings (modelled as `String` over `List Char`); the lexical operations of
Go's `path/filepath` on Unix (`Clean`, `Join`, `Abs`, `strings.HasPrefix`)
are implemented from their documented, purely lexical algorithms.  Maps are
modelled as functions `String → Option α`; wall-clock time is an explicit
`Nat` parameter; concurrency is sequentialised (each goroutine's observable
contribution to the result is applied in program order).
-/

namespace SpotiFLAC

/-! ## Go `path/filepath` lexical path model (Unix rules) -/

/-- The single-dot path segment `"."` as a character list. -/
def dotSeg : List Char := ['.']

/-- The parent path segment `".."` as a character list. -/
def dotdotSeg : List Char := ['.', '.']

/-- Split a character list on `'/'` into raw segments (empty segments kept,
as produced by repeated or leading separators). -/
def splitChars : List Char → List Char → List (List Char)
  | acc, [] => [acc.reverse]
  | acc, c :: cs =>
    if c = '/' then acc.reverse :: splitChars [] cs
    else splitChars (c :: acc) cs

/-- Core of Go `filepath.Clean`: process segments left to right, dropping
empty and `"."` segments, resolving `".."` against the accumulated output
(`".."` at the root of an absolute path vanishes; leading `".."` of a
relative path is kept).  The accumulator is kept reversed. -/
def cleanSegsAux (isA : Bool) : List (List Char) → List (List Char) → List (List Char)
  | acc, [] => acc.reverse
  | acc, seg :: rest =>
    if seg = [] ∨ seg = dotSeg then cleanSegsAux isA acc rest
    else if seg = dotdotSeg then
      match acc with
      | [] =>
        if isA then cleanSegsAux isA [] rest
        else cleanSegsAux isA [dotdotSeg] rest
      | a :: as =>
        if a = dotdotSeg then cleanSegsAux isA (dotdotSeg :: a :: as) rest
        else cleanSegsAux isA as rest
    else cleanSegsAux isA (seg :: acc) rest

/-- Join cleaned segments back with `'/'` separators. -/
def joinSegChars : List (List Char) → List Char
  | [] => []
  | [s] => s
  | s :: rest => s ++ '/' :: joinSegChars rest

/-- Go `filepath.IsAbs` on Unix: the path starts with `'/'`. -/
def isAbsChars : List Char → Bool
  | [] => false
  | c :: _ => c == '/'

/-- Go `filepath.Clean` on Unix, at the character-list level. -/
def goCleanChars (cs : List Char) : List Char :=
  if cs = [] then dotSeg
  else if isAbsChars cs then
    '/' :: joinSegChars (cleanSegsAux true [] (splitChars [] cs))
  else if cleanSegsAux false [] (splitChars [] cs) = [] then dotSeg
  else joinSegChars (cleanSegsAux false [] (splitChars [] cs))

/-- Go `filepath.Clean` on `String`s. -/
def goClean (s : String) : String := ⟨goCleanChars s.data⟩

/-- Go `strings.HasPrefix s pre`: `pre` is a literal string prefix of `s`. -/
def hasPrefixStr (s pre : String) : Bool := pre.data.isPrefixOf s.data

/-- Go `filepath.IsAbs` on `String`s. -/
def isAbsStr (s : String) : Bool := isAbsChars s.data

/-- Go `filepath.Join a b`: empty elements are dropped, the rest joined with
`'/'` and cleaned. -/
def goJoin (a b : String) : String :=
  if a = "" then (if b = "" then "" else goClean b)
  else if b = "" then goClean a
  else ⟨goCleanChars (a.data ++ '/' :: b.data)⟩

/-- Go `filepath.Abs` with an explicit working directory: an absolute path is
cleaned, a relative one is joined under the working directory. -/
def goAbs (cwd p : String) : String :=
  if isAbsStr p then goClean p else goJoin cwd p

/-! ### Cleaning preserves absoluteness -/

lemma splitChars_no_slash (cs : List Char) : ∀ acc : List Char, '/' ∉ acc →
    ∀ l ∈ splitChars acc cs, '/' ∉ l := by
  induction cs with
  | nil =>
    intro acc hacc l hl
    simp only [splitChars, List.mem_singleton] at hl
    subst hl
    simpa [List.mem_reverse] using hacc
  | cons c cs ih =>
    intro acc hacc l hl
    simp only [splitChars] at hl
    by_cases hc : c = '/'
    · rw [if_pos hc] at hl
      rcases List.mem_cons.mp hl with h1 | h2
      · subst h1; simpa [List.mem_reverse] using hacc
      · exact ih [] (by simp) l h2
    · rw [if_neg hc] at hl
      refine ih (c :: acc) ?_ l hl
      intro hmem
      rcases List.mem_cons.mp hmem with h1 | h2
      · exact hc h1.symm
      · exact hacc h2

lemma cleanSegsAux_good (segs : List (List Char)) :
    ∀ (acc : List (List Char)) (isA : Bool),
    (∀ l ∈ acc, '/' ∉ l ∧ l ≠ []) → (∀ l ∈ segs, '/' ∉ l) →
    ∀ l ∈ cleanSegsAux isA acc segs, '/' ∉ l ∧ l ≠ [] := by
  induction segs with
  | nil =>
    intro acc isA hacc _ l hl
    simp only [cleanSegsAux, List.mem_reverse] at hl
    exact hacc l hl
  | cons seg rest ih =>
    intro acc isA hacc hsegs l hl
    have hseg : '/' ∉ seg := hsegs seg (List.mem_cons_self ..)
    have hrest : ∀ x ∈ rest, '/' ∉ x := fun x hx => hsegs x (List.mem_cons_of_mem _ hx)
    by_cases h1 : seg = [] ∨ seg = dotSeg
    · simp only [cleanSegsAux, if_pos h1] at hl
      exact ih acc isA hacc hrest l hl
    · by_cases h2 : seg = dotdotSeg
      · cases acc with
        | nil =>
          simp only [cleanSegsAux, if_neg h1, if_pos h2] at hl
          by_cases hiA : isA = true
          · rw [if_pos hiA] at hl
            exact ih [] isA (by simp) hrest l hl
          · rw [if_neg hiA] at hl
            refine ih [dotdotSeg] isA ?_ hrest l hl
            intro x hx
            simp only [List.mem_singleton] at hx
            subst hx
            exact ⟨by decide, by decide⟩
        | cons a as =>
          simp only [cleanSegsAux, if_neg h1, if_pos h2] at hl
          by_cases h3 : a = dotdotSeg
          · rw [if_pos h3] at hl
            refine ih (dotdotSeg :: a :: as) isA ?_ hrest l hl
            intro x hx
            rcases List.mem_cons.mp hx with hx1 | hx2
            · subst hx1; exact ⟨by decide, by decide⟩
            · exact hacc x hx2
          · rw [if_neg h3] at hl
            exact ih as isA (fun x hx => hacc x (List.mem_cons_of_mem _ hx)) hrest l hl
      · simp only [cleanSegsAux, if_neg h1, if_neg h2] at hl
        refine ih (seg :: acc) isA ?_ hrest l hl
        intro x hx
        rcases List.mem_cons.mp hx with hx1 | hx2
        · subst hx1
          exact ⟨hseg, fun hnil => h1 (Or.inl hnil)⟩
        · exact hacc x hx2

lemma isAbsChars_joinSegChars (segs : List (List Char))
    (h : ∀ l ∈ segs, '/' ∉ l ∧ l ≠ []) :
    isAbsChars (joinSegChars segs) = false := by
  match segs with
  | [] => rfl
  | [s] =>
    obtain ⟨hs1, hs2⟩ := h s (by simp)
    match s, hs2 with
    | c :: s', _ =>
      have hc : c ≠ '/' := fun hcc => hs1 (hcc ▸ List.mem_cons_self ..)
      simp only [joinSegChars, isAbsChars]
      simpa using hc
  | s :: s2 :: rest =>
    obtain ⟨hs1, hs2⟩ := h s (by simp)
    match s, hs2 with
    | c :: s', _ =>
      have hc : c ≠ '/' := fun hcc => hs1 (hcc ▸ List.mem_cons_self ..)
      simp only [joinSegChars, List.cons_append, isAbsChars]
      simpa using hc

lemma isAbsChars_goCleanChars (cs : List Char) :
    isAbsChars (goCleanChars cs) = isAbsChars cs := by
  by_cases h0 : cs = []
  · subst h0; rfl
  · by_cases hA : isAbsChars cs = true
    · simp only [goCleanChars, if_neg h0, hA, if_true]
      simp only [isAbsChars, hA]
      decide
    · have hA' : isAbsChars cs = false := by simpa using hA
      have hsegs : ∀ l ∈ cleanSegsAux false [] (splitChars [] cs), '/' ∉ l ∧ l ≠ [] :=
        cleanSegsAux_good _ [] false (by simp) (splitChars_no_slash cs [] (by simp))
      by_cases hz : cleanSegsAux false [] (splitChars [] cs) = []
      · simp only [goCleanChars, if_neg h0, hA', Bool.false_eq_true, if_false, hz, if_true]
        simp [isAbsChars, dotSeg, hA']
      · simp only [goCleanChars, if_neg h0, hA', Bool.false_eq_true, if_false, if_neg hz]
        rw [isAbsChars_joinSegChars _ hsegs]

lemma isAbsStr_goClean (s : String) : isAbsStr (goClean s) = isAbsStr s := by
  simpa [goClean, isAbsStr] using isAbsChars_goCleanChars s.data

/-! ## Sandbox policy enforcer and file bridge (extension file API) -/

/-- Error taxonomy of `validatePath` (spec §7): lacking the file capability or
an absolute path outside every allowed directory is a permission denial; a
relative path resolving outside the sandbox is a traversal rejection. -/
inductive PathError where
  | PermissionDenied
  | PathTraversal
deriving DecidableEq

/-- The state of one `ExtensionRuntime` that `validatePath` consults: the
manifest's file-capability flag, the extension's private data directory, and
the process-wide allowed download directories (read under `RLock`). -/
structure ExtensionRuntime where
  filePermission : Bool
  dataDir : String
  allowedDownloadDirs : List String

/-- Go `isPathInAllowedDirs`: some allowed directory is a `strings.HasPrefix`
prefix of the absolute path. -/
def isPathInAllowedDirs (dirs : List String) (absPath : String) : Bool :=
  dirs.any (fun allowedDir => hasPrefixStr absPath allowedDir)

/-- Go `ExtensionRuntime.validatePath`: requires the file capability; cleans
the path; an absolute path must lie under an allowed download directory, a
relative path is joined under the data directory, resolved to absolute, and
must have the absolute data directory as a string prefix. -/
def validatePath (cwd : String) (r : ExtensionRuntime) (path : String) :
    Except PathError String :=
  if !r.filePermission then .error .PermissionDenied
  else if isAbsStr (goClean path) then
    if isPathInAllowedDirs r.allowedDownloadDirs (goAbs cwd (goClean path)) then
      .ok (goAbs cwd (goClean path))
    else .error .PermissionDenied
  else
    if hasPrefixStr (goAbs cwd (goJoin r.dataDir (goClean path))) (goAbs cwd r.dataDir) then
      .ok (goAbs cwd (goJoin r.dataDir (goClean path)))
    else .error .PathTraversal

/-- A filesystem entry as seen by `os.Stat`: directory flag and size. -/
structure FSEntry where
  isDir : Bool
  size : Nat
deriving DecidableEq

/-- The filesystem, modelled as a partial map from absolute path to entry;
`os.Stat` succeeds exactly on mapped paths. -/
def FileSystem : Type := String → Option FSEntry

/-- Go `ExtensionRuntime.fileExists`: missing argument gives `false`; a path
failing `validatePath` gives `false`; otherwise the result is whether
`os.Stat` succeeds.  The return value is a plain boolean. -/
def fileExists (cwd : String) (fs : FileSystem) (r : ExtensionRuntime)
    (args : List String) : Bool :=
  match args with
  | [] => false
  | path :: _ =>
    match validatePath cwd r path with
    | .error _ => false
    | .ok fullPath => (fs fullPath).isSome

/-- Directory containment in the path-segment sense, following the claim's
words (the resolved path is "inside" the directory): the path equals the
directory or extends it at a separator boundary.  This is the spec-side
notion used to state escape, to be compared with the code's raw string-prefix
test. -/
def isWithinDir (p d : String) : Bool := p == d || hasPrefixStr p (d ++ "/")

/-! ## Track metadata cache (`TrackIDCache`) -/

/-- Go `TrackIDCacheEntry`: three independently-settable per-catalog
identifiers and one shared expiry timestamp. -/
structure TrackIDCacheEntry where
  tidalTrackID : Int
  qobuzTrackID : Int
  amazonTrackID : String
  expiresAt : Nat
deriving DecidableEq

/-- Go `TrackIDCache` state: the map (keyed verbatim by the identifier
string), the TTL, and the amortised-cleanup bookkeeping.  Time is a `Nat`
tick count; the zero time stands for Go's `time.Time{}.IsZero()`. -/
structure TrackIDCache where
  cache : String → Option TrackIDCacheEntry
  ttl : Nat
  lastCleanup : Nat
  cleanupInterval : Nat

/-- Go `GetTrackIDCache`: the process-wide instance, created once with a
30-minute TTL and a 5-minute cleanup interval (in seconds). -/
def GetTrackIDCache : TrackIDCache :=
  { cache := fun _ => none
    ttl := 30 * 60
    lastCleanup := 0
    cleanupInterval := 5 * 60 }

/-- Go `TrackIDCache.Get`: a missing key is a miss; a present entry is
returned unless `time.Now().After(ExpiresAt)`, in which case the entry is
deleted under the write lock and the call misses.  Returns the result and
the post-call cache state. -/
def TrackIDCache.Get (c : TrackIDCache) (now : Nat) (isrc : String) :
    Option TrackIDCacheEntry × TrackIDCache :=
  match c.cache isrc with
  | none => (none, c)
  | some entry =>
    if entry.expiresAt < now then
      (none, { c with cache := fun k => if k = isrc then none else c.cache k })
    else (some entry, c)

/-- Go `TrackIDCache.pruneExpiredLocked`, pointwise: drop every entry whose
expiry is strictly before `now`. -/
def pruneExpired (m : String → Option TrackIDCacheEntry) (now : Nat) :
    String → Option TrackIDCacheEntry :=
  fun k =>
    match m k with
    | none => none
    | some entry => if entry.expiresAt < now then none else some entry

/-- Shared upsert logic of the three `SetX` methods: fetch or zero-initialise
the entry, apply the field update, reset the expiry to `now + ttl`, store,
then opportunistically sweep if the cleanup interval has elapsed. -/
def TrackIDCache.setWith (c : TrackIDCache) (now : Nat) (isrc : String)
    (upd : TrackIDCacheEntry → TrackIDCacheEntry) : TrackIDCache :=
  let entry0 :=
    match c.cache isrc with
    | some entry => entry
    | none => ⟨0, 0, "", 0⟩
  let entry1 := { upd entry0 with expiresAt := now + c.ttl }
  let m1 : String → Option TrackIDCacheEntry :=
    fun k => if k = isrc then some entry1 else c.cache k
  if 0 < c.cleanupInterval ∧ (c.lastCleanup = 0 ∨ c.cleanupInterval ≤ now - c.lastCleanup) then
    { c with cache := pruneExpired m1 now, lastCleanup := now }
  else { c with cache := m1 }

/-- Go `TrackIDCache.SetTidal`. -/
def TrackIDCache.SetTidal (c : TrackIDCache) (now : Nat) (isrc : String)
    (trackID : Int) : TrackIDCache :=
  c.setWith now isrc (fun entry => { entry with tidalTrackID := trackID })

/-- Go `TrackIDCache.SetQobuz`. -/
def TrackIDCache.SetQobuz (c : TrackIDCache) (now : Nat) (isrc : String)
    (trackID : Int) : TrackIDCache :=
  c.setWith now isrc (fun entry => { entry with qobuzTrackID := trackID })

/-- Go `TrackIDCache.SetAmazon`. -/
def TrackIDCache.SetAmazon (c : TrackIDCache) (now : Nat) (isrc : String)
    (trackID : String) : TrackIDCache :=
  c.setWith now isrc (fun entry => { entry with amazonTrackID := trackID })

/-! ## Content file index (`ISRCIndex`) -/

/-- Go `strings.ToUpper` (the canonicalisation applied to index keys). -/
def goToUpper (s : String) : String := ⟨s.data.map Char.toUpper⟩

/-- Go `ISRCIndex`: the per-directory map from uppercased ISRC to file path,
with its owning output directory. -/
structure ISRCIndex where
  index : String → Option String
  outputDir : String

/-- Go `ISRCIndex.lookup` (lowercase, internal): empty input misses;
otherwise exact lookup of the uppercased identifier, returning Go's
`(path, exists)` pair (the zero value `""` on a miss). -/
def ISRCIndex.lookup (idx : ISRCIndex) (isrc : String) : String × Bool :=
  if isrc = "" then ("", false)
  else
    match idx.index (goToUpper isrc) with
    | some path => (path, true)
    | none => ("", false)

/-- Go `ISRCIndex.remove`: delete the uppercased key (no-op on empty
input). -/
def ISRCIndex.remove (idx : ISRCIndex) (isrc : String) : ISRCIndex :=
  if isrc = "" then idx
  else { idx with index := fun k => if k = goToUpper isrc then none else idx.index k }

/-- Go `ISRCIndex.Add`: incremental patch mapping the uppercased key to the
path (no-op when either argument is empty). -/
def ISRCIndex.Add (idx : ISRCIndex) (isrc filePath : String) : ISRCIndex :=
  if isrc = "" ∨ filePath = "" then idx
  else { idx with index := fun k => if k = goToUpper isrc then some filePath else idx.index k }

/-- Go `CheckFileExists`: `os.Stat` must succeed and the entry must be a
non-directory of non-zero size. -/
def CheckFileExists (fs : FileSystem) (filePath : String) : Bool :=
  match fs filePath with
  | none => false
  | some info => !info.isDir && decide (0 < info.size)

/-- Go `checkISRCExistsInternal`: empty identifier or directory misses;
otherwise look the identifier up in the directory's index (`GetISRCIndex`
result, passed in as `idx`); a hit whose backing file fails
`CheckFileExists` evicts the stale entry and misses.  Returns Go's
`(path, found)` pair and the post-call index. -/
def checkISRCExistsInternal (fs : FileSystem) (idx : ISRCIndex)
    (outputDir isrc : String) : (String × Bool) × ISRCIndex :=
  if isrc = "" ∨ outputDir = "" then (("", false), idx)
  else
    match idx.lookup isrc with
    | (filePath, true) =>
      if CheckFileExists fs filePath then ((filePath, true), idx)
      else (("", false), idx.remove isrc)
    | (_, false) => (("", false), idx)

/-! ## Script execution controller (`RunWithTimeout`) -/

/-- Go error values observable from `RunWithTimeout`: a `*JSExecutionError`
(message plus timeout flag) or any other Go error (`fmt.Errorf`, or the
script's own error from `vm.RunString`). -/
inductive RunError where
  | jsExecutionError (message : String) (isTimeout : Bool)
  | goError (message : String)
deriving DecidableEq

/-- Go `IsTimeoutError`: the type assertion `err.(*JSExecutionError)`
followed by the `IsTimeout` flag; every other error reports `false`. -/
def IsTimeoutError : RunError → Bool
  | .jsExecutionError _ isTimeout => isTimeout
  | .goError _ => false

/-- How one execution of `vm.RunString` inside the worker goroutine ends:
with a value, with the script's own error, or with a panic carrying a
recovered message. -/
inductive ScriptOutcome where
  | completed (value : String)
  | errored (message : String)
  | panicked (message : String)

/-- The worker goroutine's contribution to the result channel, with the
deferred `recover` handler: a panic while the `interrupted` flag is set is
classified as the timeout error; any other panic is recovered into a plain
execution error carrying the panic message. -/
def goroutineResult (interrupted : Bool) : ScriptOutcome → Option String × Option RunError
  | .completed value => (some value, none)
  | .errored message => (none, some (.goError message))
  | .panicked message =>
    if interrupted then (none, some (.jsExecutionError "execution timeout exceeded" true))
    else (none, some (.goError ("panic during execution: " ++ message)))

/-- The observable scheduling of one `RunWithTimeout` call: the script
finished before the deadline; or the deadline fired (the `interrupted` flag
was set and the engine interrupted) and the goroutine stopped within the 1s
grace period with the given outcome; or the grace period elapsed without a
response. -/
inductive RunPhase where
  | finished (out : ScriptOutcome)
  | deadlineThenStop (out : ScriptOutcome)
  | deadlineNoResponse

/-- Go `RunWithTimeout`, as a function of the observable scheduling: the
`select` returns the channel result directly on natural completion; after a
deadline it forwards a non-nil channel error or substitutes the timeout
error; after the grace period it returns the forced timeout error. -/
def RunWithTimeout : RunPhase → Option String × Option RunError
  | .finished out => goroutineResult false out
  | .deadlineThenStop out =>
    match goroutineResult true out with
    | (_, some e) => (none, some e)
    | (_, none) => (none, some (.jsExecutionError "execution timeout exceeded" true))
  | .deadlineNoResponse =>
    (none, some (.jsExecutionError "execution timeout exceeded (force)" true))

/-! ## Parallel fetch orchestrator -/

/-- One line of synced lyrics (timestamp plus words), the shape of
`LyricsResponse.Lines` that `FetchCoverAndLyricsParallel` consumes. -/
structure LyricsLine where
  timestampMs : Nat
  words : String
deriving DecidableEq

/-- The lyrics client's response: a list of lines. -/
structure LyricsResponse where
  lines : List LyricsLine
deriving DecidableEq

/-- Modelled from the spec: `convertToLRCWithMetadata` is not among the
provided sources; per the spec the orchestrator "produces a synced-lyrics
rendering annotated with the track/artist".  Rendered as an LRC document
whose header carries the track and artist names, followed by one
timestamped line per lyrics line. -/
def convertToLRCWithMetadata (lyrics : LyricsResponse) (trackName artistName : String) :
    String :=
  "[ti:" ++ trackName ++ "]\n[ar:" ++ artistName ++ "]\n" ++
    String.intercalate "\n"
      (lyrics.lines.map (fun line => "[" ++ toString line.timestampMs ++ "]" ++ line.words))

/-- Go `ParallelDownloadResult`: independent result fields for the cover
task and the lyrics task. -/
structure ParallelDownloadResult where
  coverData : List Nat
  lyricsData : Option LyricsResponse
  lyricsLRC : String
  coverErr : Option String
  lyricsErr : Option String
deriving DecidableEq

/-- Outcome of the external collaborator `downloadCoverToMemory`
(consumed, not implemented, here): bytes or an error. -/
def CoverFetch : Type := String → Bool → Except String (List Nat)

/-- Outcome of the external collaborator
`NewLyricsClient().FetchLyricsAllSources` (consumed, not implemented, here):
an optional response or an error; Go's float64 duration conversion is folded
into the oracle.  `none` stands for a nil response. -/
def LyricsFetch : Type := String → String → String → Int → Except String (Option LyricsResponse)

/-- The cover goroutine's contribution: skipped when `coverURL` is empty,
otherwise records the downloaded bytes or the error in the cover fields. -/
def applyCover (coverFetch : CoverFetch) (coverURL : String) (maxQualityCover : Bool)
    (r : ParallelDownloadResult) : ParallelDownloadResult :=
  if coverURL = "" then r
  else
    match coverFetch coverURL maxQualityCover with
    | .error e => { r with coverErr := some e }
    | .ok data => { r with coverData := data }

/-- The lyrics goroutine's contribution: skipped unless `embedLyrics`;
a fetch error or a nil/empty-lines response records a lyrics error; a
response with lines records the response and its LRC rendering. -/
def applyLyrics (lyricsFetch : LyricsFetch) (embedLyrics : Bool)
    (spotifyID trackName artistName : String) (durationMs : Int)
    (r : ParallelDownloadResult) : ParallelDownloadResult :=
  if embedLyrics then
    match lyricsFetch spotifyID trackName artistName durationMs with
    | .error e => { r with lyricsErr := some e }
    | .ok none => { r with lyricsErr := some "no lyrics found" }
    | .ok (some lyrics) =>
      if 0 < lyrics.lines.length then
        { r with
          lyricsData := some lyrics
          lyricsLRC := convertToLRCWithMetadata lyrics trackName artistName }
      else { r with lyricsErr := some "no lyrics found" }
  else r

/-- Go `FetchCoverAndLyricsParallel`: launches the cover task (when a URL is
given) and the lyrics task (when requested), waits for both, and returns the
combined result; each task writes only its own fields. -/
def FetchCoverAndLyricsParallel (coverFetch : CoverFetch) (lyricsFetch : LyricsFetch)
    (coverURL : String) (maxQualityCover : Bool) (spotifyID trackName artistName : String)
    (embedLyrics : Bool) (durationMs : Int) : ParallelDownloadResult :=
  applyLyrics lyricsFetch embedLyrics spotifyID trackName artistName durationMs
    (applyCover coverFetch coverURL maxQualityCover ⟨[], none, "", none, none⟩)

/-! ## Cache pre-warming -/

/-- Go `PreWarmCacheRequest`. -/
structure PreWarmCacheRequest where
  isrc : String
  trackName : String
  artistName : String
  spotifyID : String
  service : String
deriving DecidableEq

/-- The external per-service resolvers consumed by the pre-warm path
(consumed, not implemented, here): Tidal and Qobuz ISRC search returning a
track id on success, and the SongLink availability check returning the
Amazon URL when the track is available there. -/
structure Resolvers where
  tidalSearch : String → Option Int
  qobuzSearch : String → Option Int
  amazonCheck : String → String → Option String

/-- One dispatched pre-warm resolution (`preWarmTidalCache`,
`preWarmQobuzCache`, `preWarmAmazonCache`): on resolver success the resolved
identifier is written into the cache via the matching `SetX`; failures are
swallowed.  An unknown service dispatches nothing. -/
def preWarmOne (rs : Resolvers) (now : Nat) (c : TrackIDCache)
    (r : PreWarmCacheRequest) : TrackIDCache :=
  if r.service = "tidal" then
    match rs.tidalSearch r.isrc with
    | some trackID => c.SetTidal now r.isrc trackID
    | none => c
  else if r.service = "qobuz" then
    match rs.qobuzSearch r.isrc with
    | some trackID => c.SetQobuz now r.isrc trackID
    | none => c
  else if r.service = "amazon" then
    match rs.amazonCheck r.spotifyID r.isrc with
    | some url => c.SetAmazon now r.isrc url
    | none => c
  else c

/-- Go `PreWarmTrackCache`, sequentialised: for each request in order, a
cache hit on its identifier skips it; otherwise it is dispatched to its
service's resolver.  Returns the final cache and the list of dispatched
requests. -/
def PreWarmTrackCache (rs : Resolvers) (now : Nat) (c : TrackIDCache)
    (requests : List PreWarmCacheRequest) : TrackIDCache × List PreWarmCacheRequest :=
  requests.foldl
    (fun acc r =>
      match (acc.1).Get now r.isrc with
      | (some _, c1) => (c1, acc.2)
      | (none, c1) => (preWarmOne rs now c1 r, acc.2 ++ [r]))
    (c, [])

set_option linter.unusedVariables false in
/-- Go `PreWarmCache` (the host entry point): declares an empty request
list, never decodes `tracksJSON` into it, launches `PreWarmTrackCache` on
that empty list, and returns a nil error.  Returns the dispatch outcome and
the returned error. -/
def PreWarmCache (rs : Resolvers) (now : Nat) (c : TrackIDCache)
    (tracksJSON : String) : (TrackIDCache × List PreWarmCacheRequest) × Option String :=
  let requests : List PreWarmCacheRequest := []
  (PreWarmTrackCache rs now c requests, none)

/-! ## Concrete fixtures used by witnesses and counterexamples -/

/-- Runtime for the C1 traversal analysis: file capability granted, data
directory `/data/ext`, no allowed download directories. -/
def rtC1 : ExtensionRuntime :=
  { filePermission := true, dataDir := "/data/ext", allowedDownloadDirs := [] }

/-- Runtime for the C2 witness: one allowed download directory. -/
def rtC2 : ExtensionRuntime :=
  { filePermission := true, dataDir := "/data/ext", allowedDownloadDirs := ["/downloads"] }

/-- Index fixture for the C3 witness. -/
def idxC3 : ISRCIndex :=
  { index := fun k => if k = "USUM71703861" then some "/music/a.flac" else none
    outputDir := "/music" }

/-- Expired cache entry for the C4 witness. -/
def entryC4 : TrackIDCacheEntry := ⟨7, 8, "B01", 5⟩

/-- Cache fixture for the C4 witness, holding `entryC4` under `"SRX"`. -/
def cacheC4 : TrackIDCache :=
  { cache := fun k => if k = "SRX" then some entryC4 else none
    ttl := 1800, lastCleanup := 0, cleanupInterval := 300 }

/-- Resolver fixture for the C5 divergence: Tidal resolves every ISRC. -/
def rsC5 : Resolvers :=
  { tidalSearch := fun _ => some 77
    qobuzSearch := fun _ => none
    amazonCheck := fun _ _ => none }

/-- Pre-warm request fixture for the C5 divergence. -/
def reqC5 : PreWarmCacheRequest :=
  ⟨"USUM71703861", "HUMBLE.", "Kendrick Lamar", "7KXjTSCq5nL1LoYtL7XAwS", "tidal"⟩

/-- Index fixture for the C7 witness. -/
def idxC7 : ISRCIndex :=
  { index := fun k => if k = "GBUM71029604" then some "/out/track.flac" else none
    outputDir := "/out" }

/-- Filesystem fixture for the C7 witness: the indexed file exists but has
zero size, so it counts as confirmed missing. -/
def fsC7 : FileSystem := fun p => if p = "/out/track.flac" then some ⟨false, 0⟩ else none

/-- Cache fixture for the C8 witness, holding an entry under `"SRC8"`. -/
def cacheC8 : TrackIDCache :=
  { cache := fun k => if k = "SRC8" then some ⟨1, 2, "A3", 100⟩ else none
    ttl := 1800, lastCleanup := 0, cleanupInterval := 300 }

/-- Cover oracle for the C9 witness: the cover download fails. -/
def cfC9e : CoverFetch := fun _ _ => .error "network unreachable"

/-- Second cover oracle for the C9 witness: the cover download succeeds. -/
def cfC9 : CoverFetch := fun _ _ => .ok [1, 2, 3]

/-- Lyrics oracle for the C9 witness: one synced line is returned. -/
def lfC9 : LyricsFetch := fun _ _ _ _ => .ok (some ⟨[⟨120, "hello"⟩]⟩)

/-- Second lyrics oracle for the C9 witness: the lyrics fetch fails. -/
def lfC9e : LyricsFetch := fun _ _ _ _ => .error "no lyrics source"

/-- Runtime without the file capability, for the C10 witness. -/
def rtC10n : ExtensionRuntime :=
  { filePermission := false, dataDir := "/data/ext", allowedDownloadDirs := [] }

/-- Runtime with the file capability, for the C10 witness. -/
def rtC10y : ExtensionRuntime :=
  { filePermission := true, dataDir := "/data/ext", allowedDownloadDirs := [] }

/-- Empty filesystem for the C10 witness. -/
def fsC10 : FileSystem := fun _ => none

/-! ## Claim theorems -/

/-- C1 (counterexample): the claim states that every relative argument with
`..` segments whose resolution escapes the private data directory is
rejected with a PathTraversal error.  Refuted at a concrete input: under
data directory `/data/ext`, the argument `"../extevil/secret.txt"` resolves
to `/data/extevil/secret.txt`, which is not inside `/data/ext`, yet
`validatePath` accepts it, because the sandbox check is a raw string-prefix
test and `/data/extevil/...` extends the string `/data/ext`. -/
theorem C1_counterexample :
    validatePath "/" rtC1 "../extevil/secret.txt" = .ok "/data/extevil/secret.txt" ∧
    isWithinDir "/data/extevil/secret.txt" "/data/ext" = false :=
  ⟨rfl, rfl⟩

/-- C1 (amended): for every relative argument (file capability granted),
`validatePath` joins the cleaned path under the data directory, resolves it
to absolute, and fails with PathTraversal exactly when the result does not
have the absolute data directory as a string prefix; when the string-prefix
test passes — including on `..` escapes into sibling directories whose
absolute path extends the data directory's path string — the resolved path
is accepted. -/
theorem C1_relative_prefix_characterisation (cwd : String) (r : ExtensionRuntime)
    (path : String) (hperm : r.filePermission = true) (hrel : isAbsStr path = false) :
    (hasPrefixStr (goAbs cwd (goJoin r.dataDir (goClean path))) (goAbs cwd r.dataDir) = false →
      validatePath cwd r path = .error .PathTraversal) ∧
    (hasPrefixStr (goAbs cwd (goJoin r.dataDir (goClean path))) (goAbs cwd r.dataDir) = true →
      validatePath cwd r path = .ok (goAbs cwd (goJoin r.dataDir (goClean path)))) := by
  have habs : isAbsStr (goClean path) = false := by rw [isAbsStr_goClean, hrel]
  constructor <;> intro h <;> simp [validatePath, hperm, habs, h]

/-- C1 (witness): a genuine `..` escape that does not extend the data
directory's string is rejected with PathTraversal. -/
theorem C1_witness :
    validatePath "/" rtC1 "../../etc/passwd" = .error .PathTraversal :=
  (C1_relative_prefix_characterisation "/" rtC1 "../../etc/passwd" rfl rfl).1 rfl

/-- C2: for every absolute path argument with the file capability granted,
`validatePath` succeeds — returning the resolved absolute form — if and only
if some registered allowed download directory is a string prefix of that
resolved form; otherwise it fails with PermissionDenied. -/
theorem C2_absolute_iff (cwd : String) (r : ExtensionRuntime) (path : String)
    (hperm : r.filePermission = true) (habs : isAbsStr path = true) :
    (validatePath cwd r path = .ok (goAbs cwd (goClean path)) ↔
      ∃ d ∈ r.allowedDownloadDirs, hasPrefixStr (goAbs cwd (goClean path)) d = true) ∧
    ((¬ ∃ d ∈ r.allowedDownloadDirs, hasPrefixStr (goAbs cwd (goClean path)) d = true) →
      validatePath cwd r path = .error .PermissionDenied) := by
  have habs' : isAbsStr (goClean path) = true := by rw [isAbsStr_goClean, habs]
  have hiff : isPathInAllowedDirs r.allowedDownloadDirs (goAbs cwd (goClean path)) = true ↔
      ∃ d ∈ r.allowedDownloadDirs, hasPrefixStr (goAbs cwd (goClean path)) d = true := by
    simp [isPathInAllowedDirs, List.any_eq_true]
  cases hin : isPathInAllowedDirs r.allowedDownloadDirs (goAbs cwd (goClean path)) with
  | true =>
    refine ⟨?_, ?_⟩
    · rw [← hiff, hin]
      simp [validatePath, hperm, habs', hin]
    · intro hne
      exact absurd (hiff.mp hin) hne
  | false =>
    refine ⟨?_, ?_⟩
    · rw [← hiff, hin]
      constructor
      · intro hok
        simp [validatePath, hperm, habs', hin] at hok
      · intro hcontra
        exact absurd hcontra (by simp)
    · intro _
      simp [validatePath, hperm, habs', hin]

/-- C2 (witness): an absolute path under the registered directory
`/downloads` is accepted and returned resolved. -/
theorem C2_witness :
    validatePath "/" rtC2 "/downloads/albums/x.flac" = .ok "/downloads/albums/x.flac" :=
  (C2_absolute_iff "/" rtC2 "/downloads/albums/x.flac" rfl rfl).1.mpr
    ⟨"/downloads", by simp [rtC2], by decide⟩

/-- Identifiers with the same uppercase form are simultaneously empty. -/
lemma goToUpper_empty_iff (s t : String) (h : goToUpper s = goToUpper t) :
    s = "" ↔ t = "" := by
  have hdata : s.data.map Char.toUpper = t.data.map Char.toUpper := by
    simpa [goToUpper] using congrArg String.data h
  constructor
  · intro hs
    subst hs
    have : t.data = [] := by
      simpa using (List.map_eq_nil_iff.mp hdata.symm)
    cases t
    simp_all
  · intro ht
    subst ht
    have : s.data = [] := by
      simpa using (List.map_eq_nil_iff.mp hdata)
    cases s
    simp_all

/-- C3 (counterexample): the claim states that the cache operations also
identify case-differing identifiers via a canonical uppercase form.
Refuted at a concrete input: after `SetTidal` under the key `"usum1"`, a
`Get` of `"USUM1"` misses while a `Get` of `"usum1"` hits — the metadata
cache keys entries by the verbatim identifier string. -/
theorem C3_counterexample :
    ((GetTrackIDCache.SetTidal 0 "usum1" 42).Get 0 "USUM1").1 = none ∧
    ((GetTrackIDCache.SetTidal 0 "usum1" 42).Get 0 "usum1").1 = some ⟨42, 0, "", 1800⟩ :=
  ⟨rfl, rfl⟩

/-- C3 (amended): the content-index operations (`lookup`, `Add`, `remove`)
treat identifiers differing only in case as the same key, via the canonical
uppercase form; the metadata cache operations instead use the identifier
verbatim, so case-differing identifiers are distinct cache keys (see the
counterexample). -/
theorem C3_index_case_insensitive (idx : ISRCIndex) (s t filePath : String)
    (h : goToUpper s = goToUpper t) :
    idx.lookup s = idx.lookup t ∧
    idx.Add s filePath = idx.Add t filePath ∧
    idx.remove s = idx.remove t := by
  have hempty := goToUpper_empty_iff s t h
  by_cases hs : s = ""
  · have ht : t = "" := hempty.mp hs
    refine ⟨?_, ?_, ?_⟩ <;> simp [ISRCIndex.lookup, ISRCIndex.Add, ISRCIndex.remove, hs, ht]
  · have ht : ¬ t = "" := fun htt => hs (hempty.mpr htt)
    refine ⟨?_, ?_, ?_⟩ <;>
      simp [ISRCIndex.lookup, ISRCIndex.Add, ISRCIndex.remove, hs, ht, h]

/-- C3 (witness): the index identifies `"usum71703861"` and
`"USUM71703861"` across all three operations. -/
theorem C3_witness :
    idxC3.lookup "usum71703861" = idxC3.lookup "USUM71703861" ∧
    idxC3.Add "usum71703861" "/music/b.flac" = idxC3.Add "USUM71703861" "/music/b.flac" ∧
    idxC3.remove "usum71703861" = idxC3.remove "USUM71703861" :=
  C3_index_case_insensitive idxC3 "usum71703861" "USUM71703861" "/music/b.flac" (by decide)

/-- C4: `Get` on the metadata cache never returns an entry whose expiry is
strictly in the past; an entry found expired is deleted and the call reports
a miss. -/
theorem C4_get_never_expired (c : TrackIDCache) (now : Nat) (isrc : String) :
    (∀ entry, (c.Get now isrc).1 = some entry → now ≤ entry.expiresAt) ∧
    (∀ entry, c.cache isrc = some entry → entry.expiresAt < now →
      (c.Get now isrc).1 = none ∧ (c.Get now isrc).2.cache isrc = none) := by
  constructor
  · intro entry h
    match hc : c.cache isrc with
    | none => simp [TrackIDCache.Get, hc] at h
    | some e =>
      by_cases hexp : e.expiresAt < now
      · simp [TrackIDCache.Get, hc, hexp] at h
      · simp [TrackIDCache.Get, hc, hexp] at h
        subst h
        exact Nat.le_of_not_lt hexp
  · intro entry hc hexp
    simp [TrackIDCache.Get, hc, hexp]

/-- C4 (witness): an entry that expired at time 5, read at time 10, is not
returned and is deleted from the cache. -/
theorem C4_witness :
    (cacheC4.Get 10 "SRX").1 = none ∧ (cacheC4.Get 10 "SRX").2.cache "SRX" = none :=
  (C4_get_never_expired cacheC4 10 "SRX").2 entryC4 rfl (by decide)

/-- C5: the claim states that `PreWarmCache` dispatches every submitted,
uncached request to its per-service resolver.  The code never decodes
`tracksJSON`: for every submitted tracks payload it dispatches nothing and
leaves the cache unchanged (while returning a nil error), even though the
inner `PreWarmTrackCache` would have dispatched the same request had it
been decoded (last conjunct, at a concrete input). -/
theorem C5_prewarm_ignores_tracks (rs : Resolvers) (now : Nat) (c : TrackIDCache)
    (tracksJSON : String) :
    (PreWarmCache rs now c tracksJSON).1.2 = [] ∧
    (PreWarmCache rs now c tracksJSON).1.1 = c ∧
    (PreWarmCache rs now c tracksJSON).2 = none ∧
    (PreWarmTrackCache rsC5 0 GetTrackIDCache [reqC5]).2 = [reqC5] :=
  ⟨rfl, rfl, rfl, rfl⟩

/-- C6: a panic raised while the interrupt flag is not set is recovered and
reported as a plain execution error — for which `IsTimeoutError` is false —
never as a timeout and never by crashing (a result is always returned); a
panic raised after the interrupt flag was set is classified as the timeout
error. -/
theorem C6_panic_classification (message : String) :
    RunWithTimeout (.finished (.panicked message)) =
      (none, some (.goError ("panic during execution: " ++ message))) ∧
    IsTimeoutError (.goError ("panic during execution: " ++ message)) = false ∧
    RunWithTimeout (.deadlineThenStop (.panicked message)) =
      (none, some (.jsExecutionError "execution timeout exceeded" true)) ∧
    IsTimeoutError (.jsExecutionError "execution timeout exceeded" true) = true :=
  ⟨rfl, rfl, rfl, rfl⟩

/-- C7: an identifier present in the index whose backing file fails the
existence re-check (missing, a directory, or zero-sized) makes
`checkISRCExistsInternal` report "not found" and evict the identifier's
entry, so a lookup on the returned index misses. -/
theorem C7_stale_entry_evicted (fs : FileSystem) (idx : ISRCIndex)
    (outputDir isrc filePath : String)
    (hdir : outputDir ≠ "") (hisrc : isrc ≠ "")
    (hlook : idx.lookup isrc = (filePath, true))
    (hmiss : CheckFileExists fs filePath = false) :
    checkISRCExistsInternal fs idx outputDir isrc = (("", false), idx.remove isrc) ∧
    ((checkISRCExistsInternal fs idx outputDir isrc).2).lookup isrc = ("", false) := by
  have hguard : ¬ (isrc = "" ∨ outputDir = "") := by tauto
  have h1 : checkISRCExistsInternal fs idx outputDir isrc = (("", false), idx.remove isrc) := by
    simp [checkISRCExistsInternal, hguard, hlook, hmiss]
  refine ⟨h1, ?_⟩
  rw [h1]
  simp [ISRCIndex.remove, ISRCIndex.lookup, hisrc]

/-- C7 (witness): a zero-sized indexed file is reported missing and its
entry evicted. -/
theorem C7_witness :
    checkISRCExistsInternal fsC7 idxC7 "/out" "GBUM71029604" =
      (("", false), idxC7.remove "GBUM71029604") ∧
    ((checkISRCExistsInternal fsC7 idxC7 "/out" "GBUM71029604").2).lookup "GBUM71029604" =
      ("", false) :=
  C7_stale_entry_evicted fsC7 idxC7 "/out" "GBUM71029604" "/out/track.flac"
    (by decide) (by decide) rfl rfl

/-- Upsert behaviour of the shared setter logic at the written key: the
stored entry is the updated one with expiry reset to `now + ttl`, whether or
not the opportunistic sweep runs. -/
lemma setWith_cache_self (c : TrackIDCache) (now : Nat) (isrc : String)
    (upd : TrackIDCacheEntry → TrackIDCacheEntry) (entry : TrackIDCacheEntry)
    (h : c.cache isrc = some entry) :
    (c.setWith now isrc upd).cache isrc =
      some { upd entry with expiresAt := now + c.ttl } := by
  unfold TrackIDCache.setWith
  rw [h]
  have hnotexp : ¬ (now + c.ttl < now) := Nat.not_lt.mpr (Nat.le_add_right now c.ttl)
  split
  · rename_i e heq
    injection heq with heq'
    subst heq'
    split
    · simp [pruneExpired, hnotexp]
    · simp
  · rename_i heq
    simp at heq

/-- C8: on an existing entry, each single-field write (`SetTidal`,
`SetQobuz`, `SetAmazon`) updates only its own catalog field and resets the
shared expiry to `now + ttl` (30 minutes on the process-wide instance); the
other two catalog fields of the entry are unchanged. -/
theorem C8_setters_frame (c : TrackIDCache) (now : Nat) (isrc : String)
    (entry : TrackIDCacheEntry) (h : c.cache isrc = some entry)
    (tid qid : Int) (aid : String) :
    (c.SetTidal now isrc tid).cache isrc =
      some ⟨tid, entry.qobuzTrackID, entry.amazonTrackID, now + c.ttl⟩ ∧
    (c.SetQobuz now isrc qid).cache isrc =
      some ⟨entry.tidalTrackID, qid, entry.amazonTrackID, now + c.ttl⟩ ∧
    (c.SetAmazon now isrc aid).cache isrc =
      some ⟨entry.tidalTrackID, entry.qobuzTrackID, aid, now + c.ttl⟩ ∧
    GetTrackIDCache.ttl = 30 * 60 :=
  ⟨setWith_cache_self c now isrc _ entry h,
   setWith_cache_self c now isrc _ entry h,
   setWith_cache_self c now isrc _ entry h,
   rfl⟩

/-- C8 (witness): on the concrete entry `⟨1, 2, "A3", 100⟩` each setter
changes only its own field and the expiry. -/
theorem C8_witness :
    (cacheC8.SetTidal 50 "SRC8" 11).cache "SRC8" = some ⟨11, 2, "A3", 1850⟩ ∧
    (cacheC8.SetQobuz 50 "SRC8" 12).cache "SRC8" = some ⟨1, 12, "A3", 1850⟩ ∧
    (cacheC8.SetAmazon 50 "SRC8" "Z9").cache "SRC8" = some ⟨1, 2, "Z9", 1850⟩ ∧
    GetTrackIDCache.ttl = 30 * 60 :=
  C8_setters_frame cacheC8 50 "SRC8" ⟨1, 2, "A3", 100⟩ rfl 11 12 "Z9"

/-- The lyrics task writes none of the cover fields. -/
lemma applyLyrics_cover_fields (lyricsFetch : LyricsFetch) (embedLyrics : Bool)
    (spotifyID trackName artistName : String) (durationMs : Int)
    (r : ParallelDownloadResult) :
    (applyLyrics lyricsFetch embedLyrics spotifyID trackName artistName durationMs r).coverData
      = r.coverData ∧
    (applyLyrics lyricsFetch embedLyrics spotifyID trackName artistName durationMs r).coverErr
      = r.coverErr := by
  unfold applyLyrics
  split
  · cases hm : lyricsFetch spotifyID trackName artistName durationMs with
    | error e => simp [hm]
    | ok ls =>
      cases ls with
      | none => simp [hm]
      | some lyrics => by_cases hlen : 0 < lyrics.lines.length <;> simp [hm, hlen]
  · exact ⟨rfl, rfl⟩

/-- The cover task writes none of the lyrics fields. -/
lemma applyCover_lyrics_fields (coverFetch : CoverFetch) (coverURL : String)
    (maxQualityCover : Bool) (r : ParallelDownloadResult) :
    (applyCover coverFetch coverURL maxQualityCover r).lyricsData = r.lyricsData ∧
    (applyCover coverFetch coverURL maxQualityCover r).lyricsLRC = r.lyricsLRC ∧
    (applyCover coverFetch coverURL maxQualityCover r).lyricsErr = r.lyricsErr := by
  unfold applyCover
  split
  · exact ⟨rfl, rfl, rfl⟩
  · cases hm : coverFetch coverURL maxQualityCover with
    | error e => simp [hm]
    | ok data => simp [hm]

/-- The lyrics task's output fields depend only on its own inputs and the
lyrics fields of the incoming result. -/
lemma applyLyrics_lyrics_fields (lyricsFetch : LyricsFetch) (embedLyrics : Bool)
    (spotifyID trackName artistName : String) (durationMs : Int)
    (r1 r2 : ParallelDownloadResult)
    (hd : r1.lyricsData = r2.lyricsData) (hl : r1.lyricsLRC = r2.lyricsLRC)
    (he : r1.lyricsErr = r2.lyricsErr) :
    (applyLyrics lyricsFetch embedLyrics spotifyID trackName artistName durationMs r1).lyricsData
      = (applyLyrics lyricsFetch embedLyrics spotifyID trackName artistName durationMs r2).lyricsData ∧
    (applyLyrics lyricsFetch embedLyrics spotifyID trackName artistName durationMs r1).lyricsLRC
      = (applyLyrics lyricsFetch embedLyrics spotifyID trackName artistName durationMs r2).lyricsLRC ∧
    (applyLyrics lyricsFetch embedLyrics spotifyID trackName artistName durationMs r1).lyricsErr
      = (applyLyrics lyricsFetch embedLyrics spotifyID trackName artistName durationMs r2).lyricsErr := by
  unfold applyLyrics
  split
  · cases hm : lyricsFetch spotifyID trackName artistName durationMs with
    | error e => simp [hm, hd, hl, he]
    | ok ls =>
      cases ls with
      | none => simp [hm, hd, hl, he]
      | some lyrics => by_cases hlen : 0 < lyrics.lines.length <;> simp [hm, hlen, hd, hl, he]
  · exact ⟨hd, hl, he⟩

lemma isPrefixOf_append_self (l r : List Char) : l.isPrefixOf (l ++ r) = true := by
  induction l with
  | nil => simp [List.isPrefixOf]
  | cons c cs ih => simp [List.isPrefixOf, ih]

lemma hasPrefixStr_append_self (a b : String) : hasPrefixStr (a ++ b) a = true := by
  cases a
  cases b
  exact isPrefixOf_append_self _ _

/-- C9: in the combined cover-and-lyrics fetch, the cover fields of the
result do not depend on the lyrics task and the lyrics fields do not depend
on the cover task, so a failure in one never suppresses or invalidates the
other's success; and whenever lyrics lines were obtained, the result also
carries the LRC rendering annotated with the track and artist names. -/
theorem C9_cover_lyrics_independent (coverFetch cf2 : CoverFetch)
    (lyricsFetch lf2 : LyricsFetch) (coverURL : String) (maxQualityCover : Bool)
    (spotifyID trackName artistName : String) (embedLyrics : Bool) (durationMs : Int) :
    ((FetchCoverAndLyricsParallel coverFetch lyricsFetch coverURL maxQualityCover
        spotifyID trackName artistName embedLyrics durationMs).coverData =
      (FetchCoverAndLyricsParallel coverFetch lf2 coverURL maxQualityCover
        spotifyID trackName artistName embedLyrics durationMs).coverData ∧
     (FetchCoverAndLyricsParallel coverFetch lyricsFetch coverURL maxQualityCover
        spotifyID trackName artistName embedLyrics durationMs).coverErr =
      (FetchCoverAndLyricsParallel coverFetch lf2 coverURL maxQualityCover
        spotifyID trackName artistName embedLyrics durationMs).coverErr) ∧
    ((FetchCoverAndLyricsParallel coverFetch lyricsFetch coverURL maxQualityCover
        spotifyID trackName artistName embedLyrics durationMs).lyricsData =
      (FetchCoverAndLyricsParallel cf2 lyricsFetch coverURL maxQualityCover
        spotifyID trackName artistName embedLyrics durationMs).lyricsData ∧
     (FetchCoverAndLyricsParallel coverFetch lyricsFetch coverURL maxQualityCover
        spotifyID trackName artistName embedLyrics durationMs).lyricsLRC =
      (FetchCoverAndLyricsParallel cf2 lyricsFetch coverURL maxQualityCover
        spotifyID trackName artistName embedLyrics durationMs).lyricsLRC ∧
     (FetchCoverAndLyricsParallel coverFetch lyricsFetch coverURL maxQualityCover
        spotifyID trackName artistName embedLyrics durationMs).lyricsErr =
      (FetchCoverAndLyricsParallel cf2 lyricsFetch coverURL maxQualityCover
        spotifyID trackName artistName embedLyrics durationMs).lyricsErr) ∧
    (∀ lyrics : LyricsResponse, embedLyrics = true →
      lyricsFetch spotifyID trackName artistName durationMs = .ok (some lyrics) →
      0 < lyrics.lines.length →
      (FetchCoverAndLyricsParallel coverFetch lyricsFetch coverURL maxQualityCover
        spotifyID trackName artistName embedLyrics durationMs).lyricsData = some lyrics ∧
      (FetchCoverAndLyricsParallel coverFetch lyricsFetch coverURL maxQualityCover
        spotifyID trackName artistName embedLyrics durationMs).lyricsLRC =
        convertToLRCWithMetadata lyrics trackName artistName ∧
      hasPrefixStr (convertToLRCWithMetadata lyrics trackName artistName)
        ("[ti:" ++ trackName ++ "]\n[ar:" ++ artistName ++ "]\n") = true) := by
  refine ⟨?_, ?_, ?_⟩
  · unfold FetchCoverAndLyricsParallel
    constructor
    · rw [(applyLyrics_cover_fields lyricsFetch embedLyrics spotifyID trackName artistName
            durationMs _).1,
         (applyLyrics_cover_fields lf2 embedLyrics spotifyID trackName artistName
            durationMs _).1]
    · rw [(applyLyrics_cover_fields lyricsFetch embedLyrics spotifyID trackName artistName
            durationMs _).2,
         (applyLyrics_cover_fields lf2 embedLyrics spotifyID trackName artistName
            durationMs _).2]
  · unfold FetchCoverAndLyricsParallel
    have h1 := applyCover_lyrics_fields coverFetch coverURL maxQualityCover ⟨[], none, "", none, none⟩
    have h2 := applyCover_lyrics_fields cf2 coverURL maxQualityCover ⟨[], none, "", none, none⟩
    exact applyLyrics_lyrics_fields lyricsFetch embedLyrics spotifyID trackName artistName
      durationMs _ _ (h1.1.trans h2.1.symm) (h1.2.1.trans h2.2.1.symm)
      (h1.2.2.trans h2.2.2.symm)
  · intro lyrics hemb hok hlen
    refine ⟨?_, ?_, ?_⟩
    · simp [FetchCoverAndLyricsParallel, applyLyrics, hemb, hok, hlen]
    · simp [FetchCoverAndLyricsParallel, applyLyrics, hemb, hok, hlen]
    · exact hasPrefixStr_append_self _ _

/-- C9 (witness): with a failing cover download and one obtained lyrics
line, the lyrics fields still carry the response and its annotated LRC
rendering. -/
theorem C9_witness :
    (FetchCoverAndLyricsParallel cfC9e lfC9 "http://img" true
      "sid" "Track" "Artist" true 180000).lyricsData = some ⟨[⟨120, "hello"⟩]⟩ ∧
    (FetchCoverAndLyricsParallel cfC9e lfC9 "http://img" true
      "sid" "Track" "Artist" true 180000).lyricsLRC =
      convertToLRCWithMetadata ⟨[⟨120, "hello"⟩]⟩ "Track" "Artist" ∧
    hasPrefixStr (convertToLRCWithMetadata ⟨[⟨120, "hello"⟩]⟩ "Track" "Artist")
      ("[ti:" ++ "Track" ++ "]\n[ar:" ++ "Artist" ++ "]\n") = true :=
  (C9_cover_lyrics_independent cfC9e cfC9 lfC9 lfC9e "http://img" true
    "sid" "Track" "Artist" true 180000).2.2 ⟨[⟨120, "hello"⟩]⟩ rfl rfl (by decide)

/-- C10: the script-facing `fileExists` returns a plain boolean (not a
structured result): it reports `false` both when the path fails sandbox
validation — in particular when the file capability is missing — and when
validation succeeds but the file does not exist, so the two situations are
indistinguishable at this interface. -/
theorem C10_fileExists_plain_bool (cwd : String) (fs : FileSystem)
    (r : ExtensionRuntime) (path : String) :
    (∀ e, validatePath cwd r path = .error e → fileExists cwd fs r [path] = false) ∧
    (∀ fullPath, validatePath cwd r path = .ok fullPath → fs fullPath = none →
      fileExists cwd fs r [path] = false) ∧
    (r.filePermission = false → fileExists cwd fs r [path] = false) := by
  refine ⟨?_, ?_, ?_⟩
  · intro e he
    simp [fileExists, he]
  · intro fullPath hp hf
    simp [fileExists, hp, hf]
  · intro hperm
    simp [fileExists, validatePath, hperm]

/-- C10 (witness): a capability-denied call and a valid call on a missing
file both report the same plain `false`. -/
theorem C10_witness :
    fileExists "/" fsC10 rtC10n ["a.txt"] = false ∧
    fileExists "/" fsC10 rtC10y ["a.txt"] = false :=
  ⟨(C10_fileExists_plain_bool "/" fsC10 rtC10n "a.txt").2.2 rfl,
   (C10_fileExists_plain_bool "/" fsC10 rtC10y "a.txt").2.1 "/data/ext/a.txt" rfl rfl⟩

end SpotiFLAC
